import Mathlib

/-!
Verification of the vote-weighted ranking and voting subsystem of a
concert-discovery web application (backend in `app.py`).

The durable state is two relations: `concerts` (static catalog) and `votes`
(append-only events referencing a concert).  The HTTP handlers modelled here:

* `submit_vote` (POST /api/vote): checks the concert exists, then that the
  vote type is one of "excited"/"interested", then inserts a vote row.
* `get_vote_stats` (GET /api/vote-stats): `SELECT concert_id, vote_type,
  COUNT(*) FROM votes GROUP BY concert_id, vote_type`, folded into a dict of
  dicts keyed by concert id, each initialised to excited/interested = 0.
* `get_rankings` (GET /api/rankings): a LEFT JOIN aggregate computing
  excitedVotes, interestedVotes, totalVotes, weightedScore per concert,
  `ORDER BY weightedScore DESC`, then `rank = index + 1` (and placeholder
  previousRank/rankChange) assigned by enumeration.

Databases rows are modelled as Lean structures, relations as lists, SQL
aggregation as filters/counts over those lists, and the Python dicts as
association lists with insert-or-update semantics.
-/

/-- A row of the `concerts` relation (static catalog entry). -/
structure Concert where
  id : Nat
  title : String
  date : String
  venue : String
  price : String
  organizer : String
  description : String
  imageUrl : String
  deriving DecidableEq, Repr

/-- A row of the `votes` relation.  `id` is server-assigned (SERIAL); the
`created_at` timestamp is server-assigned and never inspected by any handler,
so it is not carried in the model. -/
structure Vote where
  id : Nat
  concertId : Nat
  voteType : String
  deriving DecidableEq, Repr

/-- The durable state: the two relations plus the id the store will assign to
the next inserted vote. -/
structure Store where
  concerts : List Concert
  votes : List Vote
  nextVoteId : Nat
  deriving DecidableEq, Repr

/-- Outcome of POST /api/vote: the inserted row echoed back, a 404
"Concert not found", or a 400 "Invalid vote type". -/
inductive VoteResult where
  | ok (vote : Vote)
  | notFound
  | invalidInput
  deriving DecidableEq, Repr

/-- POST /api/vote (`submit_vote` in `app.py`): first `SELECT id FROM concerts
WHERE id = %s` — if no row, return 404; then check
`voteType in ['excited', 'interested']` — if not, return 400; otherwise
`INSERT INTO votes (concert_id, vote_type) VALUES (%s, %s)` and return the
inserted row. -/
def submit_vote (s : Store) (concertId : Nat) (voteType : String) :
    VoteResult × Store :=
  if s.concerts.any (fun c => c.id == concertId) then
    if voteType == "excited" || voteType == "interested" then
      let v : Vote := { id := s.nextVoteId, concertId := concertId, voteType := voteType }
      (VoteResult.ok v,
        { s with votes := s.votes ++ [v], nextVoteId := s.nextVoteId + 1 })
    else
      (VoteResult.invalidInput, s)
  else
    (VoteResult.notFound, s)

/-- `COUNT(*)` of votes for a given concert id with a given vote type. -/
def countVotes (votes : List Vote) (cid : Nat) (vt : String) : Nat :=
  (votes.filter (fun v => v.concertId == cid && v.voteType == vt)).length

/-- Lookup in a Python dict modelled as an association list. -/
def dictLookup {α β : Type} [DecidableEq α] : List (α × β) → α → Option β
  | [], _ => none
  | p :: d, k => if p.1 = k then some p.2 else dictLookup d k

/-- `d[k] = v` on a Python dict modelled as an association list: update the
existing entry, or append a new one. -/
def dictInsert {α β : Type} [DecidableEq α] : List (α × β) → α → β → List (α × β)
  | [], k, v => [(k, v)]
  | p :: d, k, v => if p.1 = k then (k, v) :: d else p :: dictInsert d k v

/-- The result set of `SELECT concert_id, vote_type, COUNT(*) FROM votes
GROUP BY concert_id, vote_type`: one row per distinct (concert_id, vote_type)
pair, with its count. -/
def voteGroups (votes : List Vote) : List (Nat × String × Nat) :=
  ((votes.map (fun v => (v.concertId, v.voteType))).dedup).map
    (fun p => (p.1, p.2, countVotes votes p.1 p.2))

/-- One iteration of the stats loop in `get_vote_stats`: create the concert's
entry as excited = interested = 0 if absent, then set the counter named by the
group's vote type. -/
def statsStep (stats : List (Nat × List (String × Nat))) (g : Nat × String × Nat) :
    List (Nat × List (String × Nat)) :=
  let entry := (dictLookup stats g.1).getD [("excited", 0), ("interested", 0)]
  dictInsert stats g.1 (dictInsert entry g.2.1 g.2.2)

/-- GET /api/vote-stats (`get_vote_stats` in `app.py`): run the GROUP BY query
and fold the rows into a dict of per-concert counter dicts. -/
def get_vote_stats (votes : List Vote) : List (Nat × List (String × Nat)) :=
  (voteGroups votes).foldl statsStep []

/-- Read a counter out of the stats response: 0 when the concert is absent or
the counter key is absent. -/
def statLookup (stats : List (Nat × List (String × Nat))) (cid : Nat) (vt : String) : Nat :=
  (dictLookup ((dictLookup stats cid).getD []) vt).getD 0

/-- Per-vote contribution to `weightedScore`, from the SQL
`CASE WHEN v.vote_type = 'excited' THEN 2 WHEN v.vote_type = 'interested'
THEN 1 ELSE 0 END`. -/
def voteWeight (vt : String) : Nat :=
  if vt = "excited" then 2 else if vt = "interested" then 1 else 0

/-- `COALESCE(SUM(CASE ...), 0) as weightedScore` for one concert over the
LEFT JOIN with its votes. -/
def weightedScoreFor (votes : List Vote) (cid : Nat) : Nat :=
  ((votes.filter (fun v => v.concertId == cid)).map (fun v => voteWeight v.voteType)).sum

/-- `COALESCE(COUNT(v.id), 0) as totalVotes` for one concert: the number of
vote rows joined to it. -/
def totalVotesFor (votes : List Vote) (cid : Nat) : Nat :=
  (votes.filter (fun v => v.concertId == cid)).length

/-- One row of the rankings aggregate query, before rank assignment. -/
structure AggRow where
  concert : Concert
  excitedVotes : Nat
  interestedVotes : Nat
  totalVotes : Nat
  weightedScore : Nat
  deriving DecidableEq, Repr

/-- One element of the GET /api/rankings response. -/
structure RankedRow where
  concert : Concert
  excitedVotes : Nat
  interestedVotes : Nat
  totalVotes : Nat
  weightedScore : Nat
  rank : Nat
  previousRank : Nat
  rankChange : Int
  deriving DecidableEq, Repr

/-- The aggregate row the rankings query produces for one concert. -/
def aggRow (votes : List Vote) (c : Concert) : AggRow :=
  { concert := c
    excitedVotes := countVotes votes c.id "excited"
    interestedVotes := countVotes votes c.id "interested"
    totalVotes := totalVotesFor votes c.id
    weightedScore := weightedScoreFor votes c.id }

/-- `ORDER BY weightedScore DESC`: row `a` may precede row `b` when
`b.weightedScore ≤ a.weightedScore`. -/
def rankDesc (a b : AggRow) : Prop :=
  b.weightedScore ≤ a.weightedScore

instance : DecidableRel rankDesc :=
  fun a b => inferInstanceAs (Decidable (b.weightedScore ≤ a.weightedScore))

instance : IsTotal AggRow rankDesc :=
  ⟨fun a b => Nat.le_total b.weightedScore a.weightedScore⟩

instance : IsTrans AggRow rankDesc :=
  ⟨fun _ _ _ hab hbc => le_trans hbc hab⟩

/-- The `for index, concert in enumerate(concerts)` loop: attach
`rank = index + 1`, `previousRank = index + 1`, `rankChange = 0`. -/
def assignRanks : Nat → List AggRow → List RankedRow
  | _, [] => []
  | idx, r :: rest =>
    { concert := r.concert
      excitedVotes := r.excitedVotes
      interestedVotes := r.interestedVotes
      totalVotes := r.totalVotes
      weightedScore := r.weightedScore
      rank := idx + 1
      previousRank := idx + 1
      rankChange := 0 } :: assignRanks (idx + 1) rest

/-- GET /api/rankings (`get_rankings` in `app.py`): aggregate every concert's
vote counts via the LEFT JOIN query, sort by weightedScore descending (the
source relies on the storage's sort; any correct sort realises `ORDER BY`), and
assign 1-based ranks by enumeration. -/
def get_rankings (s : Store) : List RankedRow :=
  assignRanks 0 (List.insertionSort rankDesc (s.concerts.map (aggRow s.votes)))

/-- Forget the rank fields of a response row, recovering the aggregate row. -/
def aggOf (r : RankedRow) : AggRow :=
  { concert := r.concert
    excitedVotes := r.excitedVotes
    interestedVotes := r.interestedVotes
    totalVotes := r.totalVotes
    weightedScore := r.weightedScore }

/-- Catalog entry used to instantiate the theorems on concrete data. -/
def concertA : Concert :=
  { id := 1, title := "A", date := "d1", venue := "v1", price := "Free",
    organizer := "o1", description := "c1", imageUrl := "u1" }

/-- Catalog entry used to instantiate the theorems on concrete data. -/
def concertB : Concert :=
  { id := 2, title := "B", date := "d2", venue := "v2", price := "Free",
    organizer := "o2", description := "c2", imageUrl := "u2" }

/-- A two-concert store used to instantiate the theorems on concrete data:
concert 1 has no votes, concert 2 has three "excited" and one "interested". -/
def exampleStore : Store :=
  { concerts := [concertA, concertB]
    votes :=
      [ { id := 1, concertId := 2, voteType := "excited" },
        { id := 2, concertId := 2, voteType := "excited" },
        { id := 3, concertId := 2, voteType := "excited" },
        { id := 4, concertId := 2, voteType := "interested" } ]
    nextVoteId := 5 }

/-- The first element of `get_rankings exampleStore`: concert 2 with
weightedScore 2*3 + 1*1 = 7 and rank 1. -/
def exampleRow : RankedRow :=
  { concert := concertB, excitedVotes := 3, interestedVotes := 1,
    totalVotes := 4, weightedScore := 7, rank := 1, previousRank := 1,
    rankChange := 0 }

/-! ### Association-list (dict) lemmas -/

theorem dictLookup_dictInsert {α β : Type} [DecidableEq α]
    (d : List (α × β)) (k : α) (v : β) (q : α) :
    dictLookup (dictInsert d k v) q = if k = q then some v else dictLookup d q := by
  induction d with
  | nil =>
    by_cases h : k = q <;> simp [dictInsert, dictLookup, h]
  | cons p d ih =>
    by_cases hpk : p.1 = k
    · subst hpk
      by_cases hq : p.1 = q <;> simp [dictInsert, dictLookup, hq]
    · by_cases hq : p.1 = q
      · have hkq : k ≠ q := fun h => hpk (h ▸ hq)
        simp [dictInsert, hpk, dictLookup, hq, hkq, Ne.symm hkq]
      · simp [dictInsert, hpk, dictLookup, hq, ih]

/-! ### Counting lemmas -/

theorem countVotes_cons (v : Vote) (votes : List Vote) (cid : Nat) (vt : String) :
    countVotes (v :: votes) cid vt =
      countVotes votes cid vt + (if v.concertId = cid ∧ v.voteType = vt then 1 else 0) := by
  simp only [countVotes, List.filter_cons]
  by_cases h1 : v.concertId = cid
  · by_cases h2 : v.voteType = vt
    · simp [h1, h2]
    · simp [h1, h2]
  · simp [h1]

theorem countVotes_append_single (votes : List Vote) (v : Vote) (cid : Nat) (vt : String) :
    countVotes (votes ++ [v]) cid vt =
      countVotes votes cid vt + (if v.concertId = cid ∧ v.voteType = vt then 1 else 0) := by
  simp only [countVotes, List.filter_append, List.length_append]
  by_cases h1 : v.concertId = cid
  · by_cases h2 : v.voteType = vt <;> simp [h1, h2]
  · simp [h1]

theorem countVotes_pos_iff (votes : List Vote) (cid : Nat) (vt : String) :
    0 < countVotes votes cid vt ↔ ∃ v ∈ votes, v.concertId = cid ∧ v.voteType = vt := by
  simp [countVotes, List.length_pos, List.eq_nil_iff_forall_not_mem, List.mem_filter]

theorem weightedScoreFor_cons (v : Vote) (votes : List Vote) (cid : Nat) :
    weightedScoreFor (v :: votes) cid =
      (if v.concertId = cid then voteWeight v.voteType else 0) + weightedScoreFor votes cid := by
  by_cases h : v.concertId = cid <;> simp [weightedScoreFor, List.filter_cons, h]

theorem weightedScoreFor_eq (votes : List Vote) (cid : Nat) :
    weightedScoreFor votes cid =
      2 * countVotes votes cid "excited" + countVotes votes cid "interested" := by
  induction votes with
  | nil => rfl
  | cons v rest ih =>
    have hei : ("excited" : String) ≠ "interested" := by decide
    rw [weightedScoreFor_cons, countVotes_cons, countVotes_cons, ih]
    by_cases h1 : v.concertId = cid
    · by_cases h2 : v.voteType = "excited"
      · simp only [h1, h2, voteWeight, if_true, true_and, if_pos rfl]
        simp [hei]
        omega
      · by_cases h3 : v.voteType = "interested"
        · simp [h1, h2, h3, voteWeight]
          omega
        · simp [h1, h2, h3, voteWeight]
    · simp [h1]

theorem totalVotesFor_cons (v : Vote) (votes : List Vote) (cid : Nat) :
    totalVotesFor (v :: votes) cid =
      totalVotesFor votes cid + (if v.concertId = cid then 1 else 0) := by
  by_cases h : v.concertId = cid <;> simp [totalVotesFor, List.filter_cons, h]

theorem totalVotesFor_eq_counts (votes : List Vote) (cid : Nat)
    (hty : ∀ v ∈ votes, v.voteType = "excited" ∨ v.voteType = "interested") :
    totalVotesFor votes cid =
      countVotes votes cid "excited" + countVotes votes cid "interested" := by
  induction votes with
  | nil => rfl
  | cons v rest ih =>
    have hv := hty v (by simp)
    have hrest : ∀ w ∈ rest, w.voteType = "excited" ∨ w.voteType = "interested" :=
      fun w hw => hty w (by simp [hw])
    have hei : ("excited" : String) ≠ "interested" := by decide
    rw [totalVotesFor_cons, countVotes_cons, countVotes_cons, ih hrest]
    rcases hv with h2 | h2 <;> by_cases h1 : v.concertId = cid <;>
      simp [h1, h2, hei, Ne.symm hei] <;> omega

theorem totalVotesFor_eq_zero_iff (votes : List Vote) (cid : Nat) :
    totalVotesFor votes cid = 0 ↔ ∀ v ∈ votes, v.concertId ≠ cid := by
  simp [totalVotesFor, List.length_eq_zero, List.filter_eq_nil_iff]

theorem countVotes_le_totalVotesFor (votes : List Vote) (cid : Nat) (vt : String) :
    countVotes votes cid vt ≤ totalVotesFor votes cid := by
  induction votes with
  | nil => simp [countVotes, totalVotesFor]
  | cons v rest ih =>
    rw [countVotes_cons, totalVotesFor_cons]
    by_cases h1 : v.concertId = cid <;> by_cases h2 : v.voteType = vt <;>
      simp [h1, h2] <;> omega

/-! ### Structure of the rankings response -/

theorem assignRanks_map_aggOf (idx : Nat) (l : List AggRow) :
    (assignRanks idx l).map aggOf = l := by
  induction l generalizing idx with
  | nil => rfl
  | cons r rest ih => simp [assignRanks, aggOf, ih]

theorem assignRanks_length (idx : Nat) (l : List AggRow) :
    (assignRanks idx l).length = l.length := by
  have h := congrArg List.length (assignRanks_map_aggOf idx l)
  simpa using h

theorem assignRanks_rank_get (l : List AggRow) (idx j : Nat)
    (h : j < (assignRanks idx l).length) :
    ((assignRanks idx l).get ⟨j, h⟩).rank = idx + j + 1 := by
  induction l generalizing idx j with
  | nil => simp [assignRanks] at h
  | cons r rest ih =>
    cases j with
    | zero => rfl
    | succ j =>
      have h' : j < (assignRanks (idx + 1) rest).length := by
        have hl : j + 1 < (assignRanks (idx + 1) rest).length + 1 := by
          simpa [assignRanks] using h
        omega
      have hget : (assignRanks idx (r :: rest)).get ⟨j + 1, h⟩ =
          (assignRanks (idx + 1) rest).get ⟨j, h'⟩ := rfl
      rw [hget, ih (idx + 1) j h']
      omega

theorem assignRanks_previousRank_get (l : List AggRow) (idx j : Nat)
    (h : j < (assignRanks idx l).length) :
    ((assignRanks idx l).get ⟨j, h⟩).previousRank = idx + j + 1 ∧
      ((assignRanks idx l).get ⟨j, h⟩).rankChange = 0 := by
  induction l generalizing idx j with
  | nil => simp [assignRanks] at h
  | cons r rest ih =>
    cases j with
    | zero => exact ⟨rfl, rfl⟩
    | succ j =>
      have h' : j < (assignRanks (idx + 1) rest).length := by
        have hl : j + 1 < (assignRanks (idx + 1) rest).length + 1 := by
          simpa [assignRanks] using h
        omega
      have hget : (assignRanks idx (r :: rest)).get ⟨j + 1, h⟩ =
          (assignRanks (idx + 1) rest).get ⟨j, h'⟩ := rfl
      rw [hget]
      rcases ih (idx + 1) j h' with ⟨hp, hc⟩
      refine ⟨?_, hc⟩
      rw [hp]; omega

theorem mem_get_rankings (s : Store) (row : RankedRow) (h : row ∈ get_rankings s) :
    ∃ c ∈ s.concerts, aggOf row = aggRow s.votes c := by
  have hmem : aggOf row ∈
      (assignRanks 0 (List.insertionSort rankDesc (s.concerts.map (aggRow s.votes)))).map aggOf :=
    List.mem_map_of_mem aggOf h
  rw [assignRanks_map_aggOf] at hmem
  have hmem2 : aggOf row ∈ s.concerts.map (aggRow s.votes) :=
    (List.perm_insertionSort rankDesc (s.concerts.map (aggRow s.votes))).mem_iff.mp hmem
  rcases List.mem_map.mp hmem2 with ⟨c, hc, hEq⟩
  exact ⟨c, hc, hEq.symm⟩

theorem exists_row_of_concert (s : Store) (c : Concert) (hc : c ∈ s.concerts) :
    ∃ row ∈ get_rankings s, aggOf row = aggRow s.votes c := by
  have h1 : aggRow s.votes c ∈ s.concerts.map (aggRow s.votes) :=
    List.mem_map_of_mem (aggRow s.votes) hc
  have h2 : aggRow s.votes c ∈ List.insertionSort rankDesc (s.concerts.map (aggRow s.votes)) :=
    (List.perm_insertionSort rankDesc (s.concerts.map (aggRow s.votes))).mem_iff.mpr h1
  have h3 : aggRow s.votes c ∈
      (assignRanks 0 (List.insertionSort rankDesc (s.concerts.map (aggRow s.votes)))).map aggOf := by
    rw [assignRanks_map_aggOf]
    exact h2
  rcases List.mem_map.mp h3 with ⟨row, hrow, hEq⟩
  exact ⟨row, hrow, hEq⟩

theorem get_rankings_sorted (s : Store) :
    List.Pairwise (fun a b => b.weightedScore ≤ a.weightedScore) (get_rankings s) := by
  have hs : List.Pairwise rankDesc
      (List.insertionSort rankDesc (s.concerts.map (aggRow s.votes))) :=
    List.sorted_insertionSort rankDesc (s.concerts.map (aggRow s.votes))
  have hmap : List.Pairwise (fun a b => rankDesc (aggOf a) (aggOf b))
      (assignRanks 0 (List.insertionSort rankDesc (s.concerts.map (aggRow s.votes)))) := by
    rw [← List.pairwise_map (f := aggOf)]
    rw [assignRanks_map_aggOf]
    exact hs
  exact hmap.imp (fun {a b} hab => hab)

theorem get_rankings_length (s : Store) :
    (get_rankings s).length = s.concerts.length := by
  have hperm := List.perm_insertionSort rankDesc (s.concerts.map (aggRow s.votes))
  have := hperm.length_eq
  simp only [get_rankings, assignRanks_length, this, List.length_map]

/-! ### Characterisation of the vote-stats response -/

theorem statsStep_statLookup (stats : List (Nat × List (String × Nat)))
    (g : Nat × String × Nat) (cid : Nat) (vt : String)
    (hvt : vt = "excited" ∨ vt = "interested") :
    statLookup (statsStep stats g) cid vt =
      if cid = g.1 ∧ vt = g.2.1 then g.2.2 else statLookup stats cid vt := by
  unfold statsStep statLookup
  rw [dictLookup_dictInsert]
  by_cases hc : g.1 = cid
  · subst hc
    rw [if_pos rfl]
    simp only [Option.getD_some]
    rw [dictLookup_dictInsert]
    by_cases hv : g.2.1 = vt
    · simp [hv]
    · have hv2 : ¬ vt = g.2.1 := fun h => hv h.symm
      rw [if_neg hv, if_neg (fun h : True ∧ vt = g.2.1 => hv2 h.2)]
      cases hstats : dictLookup stats g.1 with
      | some entry => rfl
      | none =>
        rcases hvt with h | h <;> subst h <;> simp [dictLookup]
  · have hcc : ¬(cid = g.1 ∧ vt = g.2.1) := fun h => hc h.1.symm
    rw [if_neg hc, if_neg hcc]

theorem foldl_statsStep_mem (groups : List (Nat × String × Nat))
    (stats : List (Nat × List (String × Nat))) (k : Nat) :
    dictLookup (groups.foldl statsStep stats) k ≠ none ↔
      (dictLookup stats k ≠ none ∨ ∃ g ∈ groups, g.1 = k) := by
  induction groups generalizing stats with
  | nil => simp
  | cons g rest ih =>
    rw [List.foldl_cons, ih]
    have hstep : dictLookup (statsStep stats g) k ≠ none ↔
        (g.1 = k ∨ dictLookup stats k ≠ none) := by
      unfold statsStep
      rw [dictLookup_dictInsert]
      by_cases h : g.1 = k <;> simp [h]
    rw [hstep]
    simp only [List.mem_cons]
    constructor
    · rintro (⟨h | h⟩ | ⟨g', hg', hk⟩)
      · exact Or.inr ⟨g, Or.inl rfl, h⟩
      · exact Or.inl h
      · exact Or.inr ⟨g', Or.inr hg', hk⟩
    · rintro (h | ⟨g', hg' | hg', hk⟩)
      · exact Or.inl (Or.inr h)
      · exact Or.inl (Or.inl (hg' ▸ hk))
      · exact Or.inr ⟨g', hg', hk⟩

theorem foldl_statsStep_statLookup (groups : List (Nat × String × Nat))
    (stats : List (Nat × List (String × Nat))) (cid : Nat) (vt : String)
    (hvt : vt = "excited" ∨ vt = "interested")
    (hnd : (groups.map (fun g => (g.1, g.2.1))).Nodup) :
    statLookup (groups.foldl statsStep stats) cid vt =
      match groups.find? (fun g => g.1 == cid && g.2.1 == vt) with
      | some g => g.2.2
      | none => statLookup stats cid vt := by
  induction groups generalizing stats with
  | nil => simp
  | cons g rest ih =>
    rw [List.map_cons] at hnd
    have hcons := List.nodup_cons.mp hnd
    have hhead : (g.1, g.2.1) ∉ rest.map (fun x => (x.1, x.2.1)) := hcons.1
    have hnd' : (rest.map (fun x => (x.1, x.2.1))).Nodup := hcons.2
    rw [List.foldl_cons, ih (statsStep stats g) hnd']
    by_cases hp : g.1 = cid ∧ g.2.1 = vt
    · have hfind : (g :: rest).find? (fun x => x.1 == cid && x.2.1 == vt) = some g := by
        simp [List.find?_cons, hp.1, hp.2]
      have hnone : rest.find? (fun x => x.1 == cid && x.2.1 == vt) = none := by
        rw [List.find?_eq_none]
        intro x hx hpx
        simp only [Bool.and_eq_true, beq_iff_eq] at hpx
        exact hhead (by
          rw [hp.1, hp.2, ← hpx.1, ← hpx.2]
          exact List.mem_map_of_mem (fun x => (x.1, x.2.1)) hx)
      rw [hnone, hfind]
      rw [statsStep_statLookup stats g cid vt hvt]
      simp [hp.1.symm, hp.2.symm]
    · have hpg : ((fun x : Nat × String × Nat => x.1 == cid && x.2.1 == vt) g) = false := by
        by_cases h1 : g.1 = cid
        · have h2 : g.2.1 ≠ vt := fun h => hp ⟨h1, h⟩
          simp [h1, h2]
        · simp [h1]
      have hfind : (g :: rest).find? (fun x => x.1 == cid && x.2.1 == vt) =
          rest.find? (fun x => x.1 == cid && x.2.1 == vt) := by
        simp [List.find?_cons, hpg]
      rw [hfind]
      cases hrest : rest.find? (fun x => x.1 == cid && x.2.1 == vt) with
      | some g' => rfl
      | none =>
        show statLookup (statsStep stats g) cid vt = statLookup stats cid vt
        rw [statsStep_statLookup stats g cid vt hvt]
        exact if_neg (fun h => hp ⟨h.1.symm, h.2.symm⟩)

theorem statLookup_get_vote_stats (votes : List Vote) (cid : Nat) (vt : String)
    (hvt : vt = "excited" ∨ vt = "interested") :
    statLookup (get_vote_stats votes) cid vt = countVotes votes cid vt := by
  unfold get_vote_stats
  have hcomp : ((fun g : Nat × String × Nat => (g.1, g.2.1)) ∘
      (fun p : Nat × String => (p.1, p.2, countVotes votes p.1 p.2))) = fun p => p := by
    funext p
    rfl
  have hnd : ((voteGroups votes).map (fun g => (g.1, g.2.1))).Nodup := by
    unfold voteGroups
    rw [List.map_map, hcomp]
    simpa using List.nodup_dedup (votes.map (fun v => (v.concertId, v.voteType)))
  rw [foldl_statsStep_statLookup _ _ _ _ hvt hnd]
  cases hfind : (voteGroups votes).find? (fun g => g.1 == cid && g.2.1 == vt) with
  | some g =>
    have hps := List.find?_some hfind
    simp only [Bool.and_eq_true, beq_iff_eq] at hps
    have hmem : g ∈ voteGroups votes := List.mem_of_find?_eq_some hfind
    unfold voteGroups at hmem
    rcases List.mem_map.mp hmem with ⟨p, hpmem, hfp⟩
    have h1 : p.1 = g.1 := by rw [← hfp]
    have h2 : p.2 = g.2.1 := by rw [← hfp]
    have h3 : g.2.2 = countVotes votes p.1 p.2 := by rw [← hfp]
    show g.2.2 = countVotes votes cid vt
    rw [h3, h1, h2, hps.1, hps.2]
  | none =>
    show statLookup [] cid vt = countVotes votes cid vt
    have hzero : countVotes votes cid vt = 0 := by
      by_contra hne
      have hpos : 0 < countVotes votes cid vt := Nat.pos_of_ne_zero hne
      rcases (countVotes_pos_iff votes cid vt).mp hpos with ⟨v, hv, hvc, hvt2⟩
      have hmemg : (cid, vt, countVotes votes cid vt) ∈ voteGroups votes := by
        unfold voteGroups
        refine List.mem_map.mpr ⟨(cid, vt), ?_, rfl⟩
        rw [List.mem_dedup]
        exact List.mem_map.mpr ⟨v, hv, by rw [hvc, hvt2]⟩
      have hcontra := List.find?_eq_none.mp hfind _ hmemg
      simp at hcontra
    rw [hzero]
    rfl

theorem get_vote_stats_mem (votes : List Vote) (cid : Nat) :
    dictLookup (get_vote_stats votes) cid ≠ none ↔ ∃ v ∈ votes, v.concertId = cid := by
  unfold get_vote_stats
  rw [foldl_statsStep_mem]
  have hempty : dictLookup ([] : List (Nat × List (String × Nat))) cid = none := rfl
  rw [hempty]
  simp only [ne_eq, not_true_eq_false, false_or]
  unfold voteGroups
  constructor
  · rintro ⟨g, hg, hcid⟩
    rcases List.mem_map.mp hg with ⟨p, hp, rfl⟩
    rcases List.mem_map.mp (List.mem_dedup.mp hp) with ⟨v, hv, rfl⟩
    exact ⟨v, hv, hcid⟩
  · rintro ⟨v, hv, hcid⟩
    refine ⟨(v.concertId, v.voteType, countVotes votes v.concertId v.voteType), ?_, hcid⟩
    exact List.mem_map.mpr
      ⟨(v.concertId, v.voteType),
       List.mem_dedup.mpr (List.mem_map.mpr ⟨v, hv, rfl⟩), rfl⟩

/-! ### Behaviour of the vote-submission handler -/

theorem submit_vote_found_any (s : Store) (cid : Nat)
    (hc : ∃ c ∈ s.concerts, c.id = cid) :
    (s.concerts.any (fun c => c.id == cid)) = true := by
  rcases hc with ⟨c, hmem, hid⟩
  exact List.any_eq_true.mpr ⟨c, hmem, by simpa using hid⟩

theorem submit_vote_notFound_any (s : Store) (cid : Nat)
    (hc : ∀ c ∈ s.concerts, c.id ≠ cid) :
    (s.concerts.any (fun c => c.id == cid)) = false := by
  rw [List.any_eq_false]
  intro c hmem
  simpa using hc c hmem

theorem submit_vote_of_missing (s : Store) (cid : Nat) (vt : String)
    (hc : ∀ c ∈ s.concerts, c.id ≠ cid) :
    submit_vote s cid vt = (VoteResult.notFound, s) := by
  unfold submit_vote
  rw [submit_vote_notFound_any s cid hc]
  simp

theorem submit_vote_of_invalid_type (s : Store) (cid : Nat) (vt : String)
    (hc : ∃ c ∈ s.concerts, c.id = cid)
    (h1 : vt ≠ "excited") (h2 : vt ≠ "interested") :
    submit_vote s cid vt = (VoteResult.invalidInput, s) := by
  unfold submit_vote
  rw [submit_vote_found_any s cid hc]
  have hb : (vt == "excited" || vt == "interested") = false := by
    simp [h1, h2]
  rw [hb]
  simp

theorem submit_vote_of_valid (s : Store) (cid : Nat) (vt : String)
    (hc : ∃ c ∈ s.concerts, c.id = cid)
    (hvt : vt = "excited" ∨ vt = "interested") :
    submit_vote s cid vt =
      (VoteResult.ok { id := s.nextVoteId, concertId := cid, voteType := vt },
       { s with
          votes := s.votes ++ [{ id := s.nextVoteId, concertId := cid, voteType := vt }],
          nextVoteId := s.nextVoteId + 1 }) := by
  unfold submit_vote
  rw [submit_vote_found_any s cid hc]
  have hb : (vt == "excited" || vt == "interested") = true := by
    rcases hvt with h | h <;> simp [h]
  rw [hb]
  simp

/-! ### Sum lemmas for the global weighted-score identity -/

theorem sum_map_add {α : Type} (l : List α) (f g : α → Nat) :
    (l.map (fun x => f x + g x)).sum = (l.map f).sum + (l.map g).sum := by
  induction l with
  | nil => rfl
  | cons a l ih =>
    simp only [List.map_cons, List.sum_cons, ih]
    omega

theorem sum_map_two_mul {α : Type} (l : List α) (f : α → Nat) :
    (l.map (fun x => 2 * f x)).sum = 2 * (l.map f).sum := by
  induction l with
  | nil => rfl
  | cons a l ih =>
    simp only [List.map_cons, List.sum_cons, ih]
    omega

theorem sum_indicator_count (concerts : List Concert) (x : Nat) :
    (concerts.map (fun c => if c.id = x then 1 else 0)).sum =
      List.count x (concerts.map (fun c => c.id)) := by
  induction concerts with
  | nil => rfl
  | cons c l ih =>
    simp only [List.map_cons, List.sum_cons, List.count_cons, ih]
    by_cases h : c.id = x
    · simp only [h, if_pos rfl]
      simp
      omega
    · simp [h]

theorem sum_countVotes (concerts : List Concert) (votes : List Vote) (t : String)
    (hnd : (concerts.map (fun c => c.id)).Nodup)
    (hfk : ∀ v ∈ votes, v.concertId ∈ concerts.map (fun c => c.id)) :
    (concerts.map (fun c => countVotes votes c.id t)).sum =
      (votes.filter (fun v => v.voteType == t)).length := by
  induction votes with
  | nil => simp [countVotes]
  | cons v rest ih =>
    have hfk2 : ∀ w ∈ rest, w.concertId ∈ concerts.map (fun c => c.id) :=
      fun w hw => hfk w (List.mem_cons_of_mem _ hw)
    have hpt : (fun c : Concert => countVotes (v :: rest) c.id t) =
        (fun c : Concert => countVotes rest c.id t +
          (if v.concertId = c.id ∧ v.voteType = t then 1 else 0)) :=
      funext fun c => countVotes_cons v rest c.id t
    rw [hpt, sum_map_add, ih hfk2]
    by_cases ht : v.voteType = t
    · have hind : (fun c : Concert => if v.concertId = c.id ∧ v.voteType = t then 1 else 0) =
          (fun c : Concert => if c.id = v.concertId then 1 else 0) := by
        funext c
        by_cases h : c.id = v.concertId
        · simp [h, ht]
        · have h2 : ¬ v.concertId = c.id := fun hh => h hh.symm
          simp [h, h2]
      rw [hind, sum_indicator_count,
        List.count_eq_one_of_mem hnd (hfk v (List.mem_cons_self v rest))]
      simp [List.filter_cons, ht]
    · have hind : (fun c : Concert => if v.concertId = c.id ∧ v.voteType = t then 1 else 0) =
          (fun _ : Concert => 0) := by
        funext c
        simp [ht]
      rw [hind]
      simp [List.filter_cons, ht]

/-- The only mutating operation keeps every stored vote's type in the closed
set {"excited", "interested"}: the invariant assumed by the totalVotes
decomposition. -/
theorem submit_vote_preserves_types (s : Store) (cid : Nat) (vt : String)
    (hty : ∀ v ∈ s.votes, v.voteType = "excited" ∨ v.voteType = "interested") :
    ∀ v ∈ (submit_vote s cid vt).2.votes,
      v.voteType = "excited" ∨ v.voteType = "interested" := by
  by_cases hc : ∃ c ∈ s.concerts, c.id = cid
  · by_cases hvt : vt = "excited" ∨ vt = "interested"
    · rw [submit_vote_of_valid s cid vt hc hvt]
      intro v hv
      rcases List.mem_append.mp hv with h | h
      · exact hty v h
      · rw [List.mem_singleton.mp h]
        exact hvt
    · have h1 : vt ≠ "excited" := fun h => hvt (Or.inl h)
      have h2 : vt ≠ "interested" := fun h => hvt (Or.inr h)
      rw [submit_vote_of_invalid_type s cid vt hc h1 h2]
      exact hty
  · have hcall : ∀ c ∈ s.concerts, c.id ≠ cid := fun c hmem heq => hc ⟨c, hmem, heq⟩
    rw [submit_vote_of_missing s cid vt hcall]
    exact hty

/-! ### Claims -/

/-- C1: every row of the GET /api/rankings response has `excitedVotes` equal to
the number of stored votes of type "excited" for that concert,
`interestedVotes` equal to the number of type "interested", and
`weightedScore = 2*excitedVotes + 1*interestedVotes`. -/
theorem rankings_weightedScore_eq (s : Store) (row : RankedRow)
    (h : row ∈ get_rankings s) :
    row.excitedVotes = countVotes s.votes row.concert.id "excited" ∧
    row.interestedVotes = countVotes s.votes row.concert.id "interested" ∧
    row.weightedScore = 2 * row.excitedVotes + 1 * row.interestedVotes := by
  rcases mem_get_rankings s row h with ⟨c, _, hEq⟩
  have h1 : row.concert = c := congrArg AggRow.concert hEq
  have h2 : row.excitedVotes = countVotes s.votes c.id "excited" :=
    congrArg AggRow.excitedVotes hEq
  have h3 : row.interestedVotes = countVotes s.votes c.id "interested" :=
    congrArg AggRow.interestedVotes hEq
  have h4 : row.weightedScore = weightedScoreFor s.votes c.id :=
    congrArg AggRow.weightedScore hEq
  refine ⟨?_, ?_, ?_⟩
  · rw [h1]
    exact h2
  · rw [h1]
    exact h3
  · rw [h4, h2, h3, weightedScoreFor_eq]
    omega

/-- Witness for C1 at a concrete store: the top row of the example store. -/
theorem rankings_weightedScore_eq_witness :
    exampleRow ∈ get_rankings exampleStore ∧
    (exampleRow.excitedVotes = countVotes exampleStore.votes exampleRow.concert.id "excited" ∧
     exampleRow.interestedVotes = countVotes exampleStore.votes exampleRow.concert.id "interested" ∧
     exampleRow.weightedScore = 2 * exampleRow.excitedVotes + 1 * exampleRow.interestedVotes) :=
  ⟨by decide, rankings_weightedScore_eq exampleStore exampleRow (by decide)⟩

/-- C2: the GET /api/rankings response is sorted by weightedScore descending,
has one row per concert, and the row at position `i` carries rank `i + 1`, so
the ranks are exactly 1..N. -/
theorem rankings_sorted_and_ranks (s : Store) :
    List.Pairwise (fun a b => b.weightedScore ≤ a.weightedScore) (get_rankings s) ∧
    (get_rankings s).length = s.concerts.length ∧
    ∀ i (h : i < (get_rankings s).length), ((get_rankings s).get ⟨i, h⟩).rank = i + 1 := by
  refine ⟨get_rankings_sorted s, get_rankings_length s, ?_⟩
  intro i h
  show ((assignRanks 0
      (List.insertionSort rankDesc (s.concerts.map (aggRow s.votes)))).get ⟨i, h⟩).rank = i + 1
  rw [assignRanks_rank_get]
  omega

/-- Witness for C2 at a concrete store: rank of the second row is 2. -/
theorem rankings_sorted_and_ranks_witness :
    ((get_rankings exampleStore).get ⟨1, by decide⟩).rank = 1 + 1 :=
  (rankings_sorted_and_ranks exampleStore).2.2 1 (by decide)

/-- C3: a concert with no stored votes still appears in the rankings response,
with excitedVotes, interestedVotes, totalVotes and weightedScore all 0. -/
theorem rankings_zero_votes (s : Store) (c : Concert) (hc : c ∈ s.concerts)
    (hz : ∀ v ∈ s.votes, v.concertId ≠ c.id) :
    ∃ row ∈ get_rankings s, row.concert = c ∧ row.excitedVotes = 0 ∧
      row.interestedVotes = 0 ∧ row.totalVotes = 0 ∧ row.weightedScore = 0 := by
  rcases exists_row_of_concert s c hc with ⟨row, hrow, hEq⟩
  have htot : totalVotesFor s.votes c.id = 0 :=
    (totalVotesFor_eq_zero_iff s.votes c.id).mpr hz
  have hexc : countVotes s.votes c.id "excited" = 0 :=
    Nat.le_zero.mp (htot ▸ countVotes_le_totalVotesFor s.votes c.id "excited")
  have hint : countVotes s.votes c.id "interested" = 0 :=
    Nat.le_zero.mp (htot ▸ countVotes_le_totalVotesFor s.votes c.id "interested")
  have hws : weightedScoreFor s.votes c.id = 0 := by
    rw [weightedScoreFor_eq, hexc, hint]
  have h2 : row.excitedVotes = countVotes s.votes c.id "excited" :=
    congrArg AggRow.excitedVotes hEq
  have h3 : row.interestedVotes = countVotes s.votes c.id "interested" :=
    congrArg AggRow.interestedVotes hEq
  have h4 : row.totalVotes = totalVotesFor s.votes c.id :=
    congrArg AggRow.totalVotes hEq
  have h5 : row.weightedScore = weightedScoreFor s.votes c.id :=
    congrArg AggRow.weightedScore hEq
  refine ⟨row, hrow, congrArg AggRow.concert hEq, ?_, ?_, ?_, ?_⟩
  · rw [h2]
    exact hexc
  · rw [h3]
    exact hint
  · rw [h4]
    exact htot
  · rw [h5]
    exact hws

/-- Witness for C3 at a concrete store: concert 1 of the example store has no
votes and appears with all counters 0. -/
theorem rankings_zero_votes_witness :
    ∃ row ∈ get_rankings exampleStore, row.concert = concertA ∧ row.excitedVotes = 0 ∧
      row.interestedVotes = 0 ∧ row.totalVotes = 0 ∧ row.weightedScore = 0 :=
  rankings_zero_votes exampleStore concertA (by decide) (by decide)

/-- C4: POST /api/vote with a concertId matching no stored concert returns
not-found and leaves the votes relation unchanged. -/
theorem submit_vote_missing_concert (s : Store) (cid : Nat) (vt : String)
    (hc : ∀ c ∈ s.concerts, c.id ≠ cid) :
    (submit_vote s cid vt).1 = VoteResult.notFound ∧
      (submit_vote s cid vt).2.votes = s.votes := by
  rw [submit_vote_of_missing s cid vt hc]
  exact ⟨rfl, rfl⟩

/-- Witness for C4 at a concrete store: concert id 999 does not exist. -/
theorem submit_vote_missing_concert_witness :
    (submit_vote exampleStore 999 "excited").1 = VoteResult.notFound ∧
      (submit_vote exampleStore 999 "excited").2.votes = exampleStore.votes :=
  submit_vote_missing_concert exampleStore 999 "excited" (by decide)

/-- C5 counterexample: a voteType outside the set together with a concertId
not in the store is answered with not-found, not invalid-input, so the claim
"invalid-input regardless of the concertId supplied" fails. -/
theorem submit_vote_invalid_type_counterexample :
    submit_vote exampleStore 999 "loved" = (VoteResult.notFound, exampleStore) ∧
      VoteResult.notFound ≠ VoteResult.invalidInput :=
  ⟨by decide, by decide⟩

/-- C5 (amended): POST /api/vote with a voteType outside
{"excited", "interested"} never inserts a row (the store is unchanged), and
signals invalid-input whenever the concertId references an existing concert
(with a missing concert it signals not-found instead). -/
theorem submit_vote_invalid_type (s : Store) (cid : Nat) (vt : String)
    (h1 : vt ≠ "excited") (h2 : vt ≠ "interested") :
    (submit_vote s cid vt).2 = s ∧
    ((∃ c ∈ s.concerts, c.id = cid) →
      (submit_vote s cid vt).1 = VoteResult.invalidInput) := by
  by_cases hc : ∃ c ∈ s.concerts, c.id = cid
  · rw [submit_vote_of_invalid_type s cid vt hc h1 h2]
    exact ⟨rfl, fun _ => rfl⟩
  · have hcall : ∀ c ∈ s.concerts, c.id ≠ cid := by
      intro c hmem heq
      exact hc ⟨c, hmem, heq⟩
    rw [submit_vote_of_missing s cid vt hcall]
    exact ⟨rfl, fun h => absurd h hc⟩

/-- Witness for the amended C5 at a concrete store: vote type "loved" on the
existing concert 1. -/
theorem submit_vote_invalid_type_witness :
    (submit_vote exampleStore 1 "loved").2 = exampleStore ∧
    ((∃ c ∈ exampleStore.concerts, c.id = 1) →
      (submit_vote exampleStore 1 "loved").1 = VoteResult.invalidInput) :=
  submit_vote_invalid_type exampleStore 1 "loved" (by decide) (by decide)

/-- C6: inserting one vote of a valid type for an existing concert increases
exactly that concert's counter for that type in GET /api/vote-stats by 1 and
leaves every other counter of every concert unchanged. -/
theorem vote_then_stats (s : Store) (cid : Nat) (vt : String)
    (hc : ∃ c ∈ s.concerts, c.id = cid)
    (hvt : vt = "excited" ∨ vt = "interested") :
    ∀ cid2 vt2, (vt2 = "excited" ∨ vt2 = "interested") →
      statLookup (get_vote_stats (submit_vote s cid vt).2.votes) cid2 vt2 =
        statLookup (get_vote_stats s.votes) cid2 vt2 +
          (if cid2 = cid ∧ vt2 = vt then 1 else 0) := by
  intro cid2 vt2 hvt2
  rw [submit_vote_of_valid s cid vt hc hvt]
  rw [statLookup_get_vote_stats _ _ _ hvt2, statLookup_get_vote_stats _ _ _ hvt2]
  show countVotes
      (s.votes ++ [{ id := s.nextVoteId, concertId := cid, voteType := vt }]) cid2 vt2 = _
  rw [countVotes_append_single]
  by_cases h : cid2 = cid ∧ vt2 = vt
  · simp [h.1, h.2]
  · have h2 : ¬(({ id := s.nextVoteId, concertId := cid, voteType := vt } : Vote).concertId
        = cid2 ∧ ({ id := s.nextVoteId, concertId := cid, voteType := vt } : Vote).voteType
        = vt2) := fun hh => h ⟨hh.1.symm, hh.2.symm⟩
    rw [if_neg h2, if_neg h]

/-- Witness for C6 at a concrete store: one "excited" vote for concert 1. -/
theorem vote_then_stats_witness :
    statLookup (get_vote_stats (submit_vote exampleStore 1 "excited").2.votes) 1 "excited" =
      statLookup (get_vote_stats exampleStore.votes) 1 "excited" +
        (if 1 = 1 ∧ "excited" = "excited" then 1 else 0) :=
  vote_then_stats exampleStore 1 "excited" (by decide) (Or.inl rfl) 1 "excited" (Or.inl rfl)

/-- C7: when every stored vote has a valid type (the invariant the insertion
path maintains), every rankings row has
`totalVotes = excitedVotes + interestedVotes`. -/
theorem rankings_totalVotes_eq (s : Store)
    (hty : ∀ v ∈ s.votes, v.voteType = "excited" ∨ v.voteType = "interested") :
    ∀ row ∈ get_rankings s, row.totalVotes = row.excitedVotes + row.interestedVotes := by
  intro row h
  rcases mem_get_rankings s row h with ⟨c, _, hEq⟩
  have h2 : row.excitedVotes = countVotes s.votes c.id "excited" :=
    congrArg AggRow.excitedVotes hEq
  have h3 : row.interestedVotes = countVotes s.votes c.id "interested" :=
    congrArg AggRow.interestedVotes hEq
  have h4 : row.totalVotes = totalVotesFor s.votes c.id :=
    congrArg AggRow.totalVotes hEq
  rw [h2, h3, h4, totalVotesFor_eq_counts s.votes c.id hty]

/-- Witness for C7 at a concrete store. -/
theorem rankings_totalVotes_eq_witness :
    exampleRow.totalVotes = exampleRow.excitedVotes + exampleRow.interestedVotes :=
  rankings_totalVotes_eq exampleStore (by decide) exampleRow (by decide)

/-- C8: with distinct concert ids (primary key) and every vote referencing a
stored concert (foreign key), the sum of weightedScore over the rankings
response equals 2 * (number of stored "excited" votes) + 1 * (number of stored
"interested" votes). -/
theorem rankings_sum_weightedScore (s : Store)
    (hnd : (s.concerts.map (fun c => c.id)).Nodup)
    (hfk : ∀ v ∈ s.votes, v.concertId ∈ s.concerts.map (fun c => c.id)) :
    ((get_rankings s).map (fun r => r.weightedScore)).sum =
      2 * (s.votes.filter (fun v => v.voteType == "excited")).length +
        1 * (s.votes.filter (fun v => v.voteType == "interested")).length := by
  have h1 : ((get_rankings s).map (fun r => r.weightedScore)) =
      ((List.insertionSort rankDesc (s.concerts.map (aggRow s.votes))).map
        (fun a => a.weightedScore)) := by
    unfold get_rankings
    have h2 : ((assignRanks 0
        (List.insertionSort rankDesc (s.concerts.map (aggRow s.votes)))).map aggOf).map
        (fun a => a.weightedScore) =
        (assignRanks 0 (List.insertionSort rankDesc (s.concerts.map (aggRow s.votes)))).map
          (fun r => r.weightedScore) := by
      rw [List.map_map]
      exact rfl
    rw [← h2, assignRanks_map_aggOf]
  rw [h1]
  have hperm : ((List.insertionSort rankDesc (s.concerts.map (aggRow s.votes))).map
      (fun a => a.weightedScore)).Perm
      ((s.concerts.map (aggRow s.votes)).map (fun a => a.weightedScore)) :=
    (List.perm_insertionSort rankDesc (s.concerts.map (aggRow s.votes))).map
      (fun a => a.weightedScore)
  rw [hperm.sum_eq, List.map_map]
  have hws : ((fun a : AggRow => a.weightedScore) ∘ aggRow s.votes) =
      fun c : Concert => weightedScoreFor s.votes c.id := rfl
  rw [hws]
  have hpt : (fun c : Concert => weightedScoreFor s.votes c.id) =
      (fun c : Concert => 2 * countVotes s.votes c.id "excited" +
        countVotes s.votes c.id "interested") :=
    funext fun c => weightedScoreFor_eq s.votes c.id
  rw [hpt, sum_map_add, sum_map_two_mul,
    sum_countVotes s.concerts s.votes "excited" hnd hfk,
    sum_countVotes s.concerts s.votes "interested" hnd hfk]
  omega

/-- Witness for C8 at a concrete store. -/
theorem rankings_sum_weightedScore_witness :
    ((get_rankings exampleStore).map (fun r => r.weightedScore)).sum =
      2 * (exampleStore.votes.filter (fun v => v.voteType == "excited")).length +
        1 * (exampleStore.votes.filter (fun v => v.voteType == "interested")).length :=
  rankings_sum_weightedScore exampleStore (by decide) (by decide)

/-- C9: GET /api/vote-stats keys exactly the concerts with at least one vote
(zero-vote concerts are absent), and for any concert id the reported excited
and interested counters equal the stored counts. -/
theorem vote_stats_spec (votes : List Vote) (cid : Nat) :
    (dictLookup (get_vote_stats votes) cid ≠ none ↔ ∃ v ∈ votes, v.concertId = cid) ∧
    statLookup (get_vote_stats votes) cid "excited" = countVotes votes cid "excited" ∧
    statLookup (get_vote_stats votes) cid "interested" = countVotes votes cid "interested" :=
  ⟨get_vote_stats_mem votes cid,
   statLookup_get_vote_stats votes cid "excited" (Or.inl rfl),
   statLookup_get_vote_stats votes cid "interested" (Or.inr rfl)⟩

/-- C10: when the concertId does not exist and the voteType is also invalid,
the response is not-found — the concert check runs before the type check. -/
theorem submit_vote_notFound_precedence (s : Store) (cid : Nat) (vt : String)
    (hc : ∀ c ∈ s.concerts, c.id ≠ cid)
    (_h1 : vt ≠ "excited") (_h2 : vt ≠ "interested") :
    (submit_vote s cid vt).1 = VoteResult.notFound ∧
      (submit_vote s cid vt).1 ≠ VoteResult.invalidInput := by
  rw [submit_vote_of_missing s cid vt hc]
  exact ⟨rfl, fun hcontr => VoteResult.noConfusion hcontr⟩

/-- Witness for C10 at a concrete store: concert 999 missing, type "loved". -/
theorem submit_vote_notFound_precedence_witness :
    (submit_vote exampleStore 999 "loved").1 = VoteResult.notFound ∧
      (submit_vote exampleStore 999 "loved").1 ≠ VoteResult.invalidInput :=
  submit_vote_notFound_precedence exampleStore 999 "loved" (by decide) (by decide) (by decide)
